import Mathlib

/-!
Shallow embedding of `convertToFlac.py` (CUE-sheet driven album -> FLAC
converter) and proofs about the claims of its specification.

The embedding translates the Python source line by line:

* Python strings become `String` (occasionally reasoned about through their
  `List Char` data).
* `os.linesep` is the POSIX line separator `"\n"` (the tool targets Linux:
  it shells out to `shnsplit` / `metaflac`).
* `shlex.split` (posix mode, whitespace split) is modelled by `shlex_split`;
  it returns `none` where Python raises `ValueError` (unterminated quote or
  a trailing escape character).
* Python exceptions are modelled with `Except` / `Option` result types, and
  with explicit report records where partial side effects matter.
* The external processes (`shnsplit`, `metaflac`, `ffmpeg`) are opaque: the
  model records the arguments the code would hand them.
-/

deriving instance DecidableEq for Except

/-- POSIX `os.linesep`. -/
def linesep : String := "\n"

/-- The single-quote character (written via its code point). -/
def sq_char : Char := Char.ofNat 39

/-- The backslash character (written via its code point). -/
def bs_char : Char := Char.ofNat 92

/-- The double-quote character. -/
def dq_char : Char := Char.ofNat 34

/-- Whitespace as used by Python `shlex` (' \t\r\n'). -/
def shlex_ws (c : Char) : Bool :=
  c == ' ' || c == '\t' || c == '\r' || c == '\n'

/-- Characters Python `str.strip()` removes (ASCII whitespace subset; the
sheets handled by the tool contain no exotic Unicode whitespace). -/
def py_ws (c : Char) : Bool :=
  c == ' ' || c == '\t' || c == '\r' || c == '\n' ||
  c == Char.ofNat 11 || c == Char.ofNat 12

/-- Python `str.strip()` on the character list of a string. -/
def py_strip_chars (l : List Char) : List Char :=
  ((l.dropWhile py_ws).reverse.dropWhile py_ws).reverse

/-- Python `s.startswith(p)` (also models the anchored regex
`re.match('^P...')` used for the header tags). -/
def py_startsWith (s p : String) : Bool :=
  p.data.isPrefixOf s.data

/-- States of the `shlex` tokenizer: outside quotes, after an escape
character, inside double quotes, after an escape inside double quotes,
inside single quotes. -/
inductive ShState
  | norm
  | esc
  | dq
  | dqEsc
  | sq
deriving DecidableEq

/-- Core loop of Python `shlex.split(s)` (posix rules, whitespace split).
`acc = none` means no token has been started yet; `acc = some t` is the
token collected so far (an empty `t` still yields a token, as for `""`).
Where Python raises `ValueError` (input ends inside a quote or right after
an escape character) the model returns `none`. -/
def shlex_core (l : List Char) (st : ShState) (acc : Option (List Char)) :
    Option (List String) :=
  match l, st, acc with
  | [], .norm, none => some []
  | [], .norm, some t => some [String.mk t]
  | [], _, _ => none
  | c :: cs, .norm, acc =>
    if shlex_ws c then
      match acc with
      | none => shlex_core cs .norm none
      | some t => (shlex_core cs .norm none).map (String.mk t :: ·)
    else if c == dq_char then shlex_core cs .dq (some (acc.getD []))
    else if c == sq_char then shlex_core cs .sq (some (acc.getD []))
    else if c == bs_char then shlex_core cs .esc (some (acc.getD []))
    else shlex_core cs .norm (some (acc.getD [] ++ [c]))
  | c :: cs, .esc, acc => shlex_core cs .norm (some (acc.getD [] ++ [c]))
  | c :: cs, .dq, acc =>
    if c == dq_char then shlex_core cs .norm acc
    else if c == bs_char then shlex_core cs .dqEsc acc
    else shlex_core cs .dq (some (acc.getD [] ++ [c]))
  | c :: cs, .dqEsc, acc =>
    if c == dq_char || c == bs_char then
      shlex_core cs .dq (some (acc.getD [] ++ [c]))
    else shlex_core cs .dq (some (acc.getD [] ++ [bs_char, c]))
  | c :: cs, .sq, acc =>
    if c == sq_char then shlex_core cs .norm acc
    else shlex_core cs .sq (some (acc.getD [] ++ [c]))

/-- Python `shlex.split(s)`. -/
def shlex_split (s : String) : Option (List String) :=
  shlex_core s.data .norm none

/-- Splitting a character list at every occurrence of `sep`
(Python `s.split(sep)` for a one-character separator). -/
def splitOnChar (sep : Char) : List Char → List (List Char)
  | [] => [[]]
  | c :: cs =>
    if c == sep then [] :: splitOnChar sep cs
    else
      match splitOnChar sep cs with
      | [] => [[c]]
      | t :: ts => (c :: t) :: ts

/-- Joining character lists with `sep` (Python `sep.join(parts)`). -/
def joinChar (sep : Char) : List (List Char) → List Char
  | [] => []
  | [t] => t
  | t :: ts => t ++ sep :: joinChar sep ts

/-- Replace the last element `t` of the list by `t ++ s`
(Python `parts[-1] = parts[-1] + suffix`). -/
def appendToLast (s : List Char) : List (List Char) → List (List Char)
  | [] => []
  | [t] => [t ++ s]
  | t :: ts => t :: appendToLast s ts

/-- The guard of `CueConverter.fix_time_format`:
`line.strip().startswith('INDEX ')`. -/
def is_index_line (line : String) : Bool :=
  "INDEX ".data.isPrefixOf (py_strip_chars line.data)

/-- `CueConverter.fix_time_format`.  For a line whose stripped form starts
with `INDEX ` the code removes every line separator, splits on `:`, appends
`'0' + os.linesep` to the last component and rejoins; other lines pass
through unchanged.  (`line.replace(os.linesep, '')` with the one-character
POSIX separator removes each newline character.) -/
def fix_time_format (line : String) : String :=
  if is_index_line line then
    String.mk (joinChar ':'
      (appendToLast ('0' :: linesep.data)
        (splitOnChar ':' (line.data.filter (fun c => !(c == '\n'))))))
  else line

/-- Python exceptions that can escape the parsing / tagging code:
`IndexError` (indexing an empty or too-short list) and the `ValueError`
that `shlex.split` raises on malformed quoting. -/
inductive PErr
  | indexError
  | valueError
  | runtimeError
deriving DecidableEq

/-- `CueDisc`: one `FILE ... WAVE` section of the sheet. -/
structure CueDisc where
  titles_tags : List String := []
  cue_context : List String := []
  music_file_name : Option String := none
deriving DecidableEq

/-- `CueAlbum`: the whole parsed sheet. -/
structure CueAlbum where
  album_tag : Option String := none
  artist_tag : Option String := none
  year_tag : Option String := none
  cue_disks : List CueDisc := []
  header : List String := []
deriving DecidableEq

/-- `CueAlbum._populate_album_tag`: on a line matching `^TITLE (.*)$` the
album tag is assigned `shlex.split(group(1))[0]` (unconditionally: an
earlier value is overwritten).  `group(1)` is `line.drop 6`.  Indexing `[0]`
of an empty token list raises `IndexError`. -/
def CueAlbum.populate_album_tag (a : CueAlbum) (line : String) :
    Except PErr CueAlbum :=
  if py_startsWith line "TITLE " then
    match shlex_split (line.drop 6) with
    | none => .error .valueError
    | some [] => .error .indexError
    | some (t :: _) => .ok { a with album_tag := some t }
  else .ok a

/-- `CueAlbum._populate_artist_tag` (`^PERFORMER (.*)$`). -/
def CueAlbum.populate_artist_tag (a : CueAlbum) (line : String) :
    Except PErr CueAlbum :=
  if py_startsWith line "PERFORMER " then
    match shlex_split (line.drop 10) with
    | none => .error .valueError
    | some [] => .error .indexError
    | some (t :: _) => .ok { a with artist_tag := some t }
  else .ok a

/-- `CueAlbum._populate_year_tag` (`^REM DATE (.*)$`). -/
def CueAlbum.populate_year_tag (a : CueAlbum) (line : String) :
    Except PErr CueAlbum :=
  if py_startsWith line "REM DATE " then
    match shlex_split (line.drop 9) with
    | none => .error .valueError
    | some [] => .error .indexError
    | some (t :: _) => .ok { a with year_tag := some t }
  else .ok a

/-- `CueAlbum.append_line_to_header`: record the raw line, then try the
three tag extractors in source order. -/
def CueAlbum.append_line_to_header (a : CueAlbum) (line : String) :
    Except PErr CueAlbum :=
  match CueAlbum.populate_album_tag { a with header := a.header ++ [line] } line with
  | .error e => .error e
  | .ok a2 =>
    match CueAlbum.populate_artist_tag a2 line with
    | .error e => .error e
    | .ok a3 => CueAlbum.populate_year_tag a3 line

/-- `CueDisc._populate_title_tag` (`re.match('([ \t]+)?TITLE (.*)$', line)`):
optional leading blanks/tabs, then `TITLE `; `group(2)` is the remainder. -/
def CueDisc.populate_title_tag (d : CueDisc) (line : String) :
    Except PErr CueDisc :=
  let rest := String.mk (line.data.dropWhile (fun c => c == ' ' || c == '\t'))
  if py_startsWith rest "TITLE " then
    match shlex_split (rest.drop 6) with
    | none => .error .valueError
    | some [] => .error .indexError
    | some (t :: _) => .ok { d with titles_tags := d.titles_tags ++ [t] }
  else .ok d

/-- `CueDisc.append_to_cue_context`. -/
def CueDisc.append_to_cue_context (d : CueDisc) (line : String) :
    Except PErr CueDisc :=
  CueDisc.populate_title_tag { d with cue_context := d.cue_context ++ [line] } line

/-- `cue_album.get_last_disc()` followed by a mutation of that disc
(Python mutates the list element in place; the model rebuilds the list).
`get_last_disc` raises `RuntimeError` when no disc was added yet; the
parser only calls it under a `len > 0` guard. -/
def CueAlbum.modify_last_disc (a : CueAlbum)
    (f : CueDisc → Except PErr CueDisc) : Except PErr CueAlbum :=
  match a.cue_disks.getLast? with
  | none => .error .runtimeError
  | some d =>
    match f d with
    | .error e => .error e
    | .ok d2 => .ok { a with cue_disks := a.cue_disks.dropLast ++ [d2] }

/-- The loop body of `CueConverter.parse_cue_file` over the decoded lines.
A `FILE ` line appends a fresh disc and stores token `[1]` of the
shlex-split line as its music file name; once at least one disc exists,
every line (the `FILE` line included) is passed through `fix_time_format`
and appended to the last disc's context, otherwise it goes to the header. -/
def parse_lines : List String → CueAlbum → Except PErr CueAlbum
  | [], a => .ok a
  | line :: rest, a =>
    let step : Except PErr CueAlbum :=
      if py_startsWith line "FILE " then
        match shlex_split line with
        | none => .error .valueError
        | some tokens =>
          match tokens.get? 1 with
          | none => .error .indexError
          | some name =>
            .ok { a with cue_disks :=
                    a.cue_disks ++ [{ music_file_name := some name }] }
      else .ok a
    match step with
    | .error e => .error e
    | .ok a1 =>
      match
        (if a1.cue_disks.length > 0 then
          CueAlbum.modify_last_disc a1
            (fun d => CueDisc.append_to_cue_context d (fix_time_format line))
        else CueAlbum.append_line_to_header a1 line) with
      | .error e => .error e
      | .ok a2 => parse_lines rest a2

/-- `CueConverter.parse_cue_file`, starting from an empty `CueAlbum`
(the argument is the decoded line list returned by
`FileUtils.readTextFile`). -/
def parse_cue_file (lines : List String) : Except PErr CueAlbum :=
  parse_lines lines {}

/-- `CueToFlacTagUtils.__add_if_present` appends `param + '=' + tag` to the
command exactly when the value is truthy: `None` (here `none`) and the
empty string are both skipped. -/
def opt_tag (param : String) (tag : Option String) : List String :=
  match tag with
  | none => []
  | some t => if t = "" then [] else [param ++ "=" ++ t]

/-- `__add_if_present` as the source uses it: extend the command list. -/
def add_if_present (cmd : List String) (param : String) (tag : Option String) :
    List String :=
  cmd ++ opt_tag param tag

/-- `cue_album.get_disc(id)`: plain list indexing (raises `IndexError`
out of range, modelled by `none`). -/
def CueAlbum.get_disc (a : CueAlbum) (id : Nat) : Option CueDisc :=
  a.cue_disks.get? id

/-- `CueToFlacTagUtils.tag_single_file`: build the `metaflac` command for
one file.  Indexing a missing disc or a missing title raises `IndexError`
(modelled by `none`); otherwise the command handed to the external
tag-writer is returned. -/
def CueToFlacTagUtils.tag_single_file (flac_file : String) (cue_album : CueAlbum)
    (disc_id track_id : Nat) : Option (List String) :=
  match cue_album.get_disc disc_id with
  | none => none
  | some d =>
    match d.titles_tags.get? track_id with
    | none => none
    | some title =>
      let cmd := ["metaflac", "--preserve-modtime"]
      let cmd := add_if_present cmd "--set-tag=ARTIST" cue_album.artist_tag
      let cmd := add_if_present cmd "--set-tag=ALBUM" cue_album.album_tag
      let cmd := add_if_present cmd "--set-tag=TITLE" (some title)
      let cmd := add_if_present cmd "--set-tag=DATE" cue_album.year_tag
      some (cmd ++ [flac_file])

/-- Result of `CueToFlacTagUtils.tag_files`: the tag-writer invocations
actually performed, and whether the loop aborted with an `IndexError`
(earlier files stay tagged when a later index is out of range). -/
structure TagRun where
  invocations : List (List String)
  indexError : Bool
deriving DecidableEq

/-- The `for track_id, file in enumerate(files)` loop of `tag_files`. -/
def tag_files_loop (cue_album : CueAlbum) (disc_id : Nat) :
    List String → Nat → TagRun
  | [], _ => ⟨[], false⟩
  | f :: fs, track_id =>
    match CueToFlacTagUtils.tag_single_file f cue_album disc_id track_id with
    | none => ⟨[], true⟩
    | some cmd =>
      let r := tag_files_loop cue_album disc_id fs (track_id + 1)
      ⟨cmd :: r.invocations, r.indexError⟩

/-- `CueToFlacTagUtils.tag_files`.  `files` is the directory listing
already sorted by modification time (`files.sort(key=os.path.getmtime)`);
the file system is outside the model, so the sorted list is the input. -/
def CueToFlacTagUtils.tag_files (files : List String) (cue_album : CueAlbum)
    (current_disc_id : Nat) : TagRun :=
  tag_files_loop cue_album current_disc_id files 0

/-- The byte content `CueConverter.create_temp_cue_file` writes: every line
followed by `os.linesep`. -/
def temp_cue_content (cue_content_array : List String) : String :=
  String.join (cue_content_array.map (fun l => l ++ linesep))

/-- `CueConverter.create_temp_cue_file`: writes the content, then raises
`IOError` (`none`) if the resulting file is empty.  The raise happens
before `convert`'s `try/finally` is entered, and the function does not
delete the file it just created. -/
def create_temp_cue_file (cue_content_array : List String) : Option String :=
  let content := temp_cue_content cue_content_array
  if content = "" then none else some content

/-- Exceptions that can escape one round of `CueConverter.convert`'s disc
loop: the empty-temp-sheet `IOError`, the tagger's `IndexError`, and
`move_to_newdir`'s `AttributeError` when the destination exists as a file.
(`subprocess.CalledProcessError` from the splitter is caught inside
`split_file_by_cue_sheet` and only logged.) -/
inductive PyExc
  | emptyTempSheet
  | indexError
  | destConflict
deriving DecidableEq

/-- What happened to one disc during `CueConverter.convert`:
`split_call = some n` iff `split_file_by_cue_sheet` was invoked, with `n`
the starting track number handed to `shnsplit -c`; the two flags record
whether the `finally` block removed the temp cue file and the temp output
directory. -/
structure DiscReport where
  split_call : Option Nat
  temp_cue_removed : Bool
  temp_dir_removed : Bool
deriving DecidableEq

/-- Outcome of `CueConverter.convert`: one report per disc reached, and
the exception (if any) that aborted the loop. -/
structure ConvertResult where
  reports : List DiscReport
  exc : Option PyExc
deriving DecidableEq

/-- The `for cue_disc_id, cue_disc in enumerate(...)` loop of
`CueConverter.convert`.

* `env disc_id` is the mtime-sorted file listing of the disc's temporary
  output directory as the tagger sees it (after `remove_pregap_files`);
  the external splitter that produces those files is opaque.
* `destIsFile` models `os.path.exists(dest) and os.path.isfile(dest)` in
  `FileUtils.move_to_newdir`; `debug` models `args.debug`.
* `create_temp_cue_file` raising (empty sheet) happens before the
  `try`, so no cleanup runs on that path; every exception inside the
  `try` goes through the `finally`, which removes the temp cue and, unless
  `debug`, the temp directory.
* `first_track_num` is advanced by the disc's title count after tagging
  and before the move. -/
def convert_loop (header : List String) (env : Nat → List String)
    (destIsFile debug : Bool) (cue_album : CueAlbum) :
    List CueDisc → Nat → Nat → ConvertResult
  | [], _, _ => ⟨[], none⟩
  | cue_disc :: rest, cue_disc_id, first_track_num =>
    match create_temp_cue_file (header ++ cue_disc.cue_context) with
    | none => ⟨[⟨none, false, false⟩], some .emptyTempSheet⟩
    | some _ =>
      let tr := CueToFlacTagUtils.tag_files (env cue_disc_id) cue_album cue_disc_id
      if tr.indexError then
        ⟨[⟨some first_track_num, true, !debug⟩], some .indexError⟩
      else if destIsFile then
        ⟨[⟨some first_track_num, true, !debug⟩], some .destConflict⟩
      else
        let r := convert_loop header env destIsFile debug cue_album rest
          (cue_disc_id + 1) (first_track_num + cue_disc.titles_tags.length)
        ⟨⟨some first_track_num, true, !debug⟩ :: r.reports, r.exc⟩

/-- `CueConverter.convert`: iterate the album's discs starting from
`FIRST_TRACK_START_NUMBER = 1`. -/
def CueConverter.convert (cue_album : CueAlbum) (env : Nat → List String)
    (destIsFile debug : Bool) : ConvertResult :=
  convert_loop cue_album.header env destIsFile debug cue_album
    cue_album.cue_disks 0 1

/-- Failures of `FileUtils.readTextFile`: the `IOError` raised when the
explicitly given fallback encoding also fails, the `IOError` telling the
operator to supply `--fallback_cue_encoding`, and Python's
`RecursionError` when the recursion never terminates. -/
inductive ReadError
  | fallbackFailed
  | noFallback
  | recursionLimit
deriving DecidableEq

/-- `FileUtils.readTextFile`.

* `decode e` abstracts reading the file with `codecs.open(..., encoding=e)`
  followed by `read().splitlines()`: `some lines` on success, `none` for a
  `UnicodeDecodeError`.
* `fallback_cue_encoding` is the `args.fallback_cue_encoding` global
  (`none` when the flag was not given).
* `fuel` bounds the recursion depth, as Python's recursion limit does; the
  source recurses with the same arguments whenever the fallback equals
  `'utf-8'`, so without the bound the function would not terminate.

Returns the list of encodings attempted (in order) together with the
decoded lines or the error. -/
def FileUtils.readTextFile (fuel : Nat) (decode : String → Option (List String))
    (fallback_cue_encoding : Option String) (encoding : String) :
    List String × Except ReadError (List String) :=
  match fuel with
  | 0 => ([], .error .recursionLimit)
  | fuel + 1 =>
    match decode encoding with
    | some lines => ([encoding], .ok lines)
    | none =>
      if encoding ≠ "utf-8" then ([encoding], .error .fallbackFailed)
      else
        match fallback_cue_encoding with
        | none => ([encoding], .error .noFallback)
        | some fb =>
          let r := FileUtils.readTextFile fuel decode fallback_cue_encoding fb
          (encoding :: r.1, r.2)

/-! ## Helper lemmas about the character-level splitting functions -/

theorem splitOnChar_ne_nil (sep : Char) (l : List Char) :
    splitOnChar sep l ≠ [] := by
  cases l with
  | nil => simp [splitOnChar]
  | cons c cs =>
    unfold splitOnChar
    split
    · simp
    · split
      · simp
      · simp

theorem joinChar_cons_cons (sep c : Char) (t : List Char)
    (ts : List (List Char)) :
    joinChar sep ((c :: t) :: ts) = c :: joinChar sep (t :: ts) := by
  cases ts <;> simp [joinChar]

theorem joinChar_splitOnChar (sep : Char) (l : List Char) :
    joinChar sep (splitOnChar sep l) = l := by
  induction l with
  | nil => simp [splitOnChar, joinChar]
  | cons c cs ih =>
    unfold splitOnChar
    obtain ⟨t, ts, hts⟩ : ∃ t ts, splitOnChar sep cs = t :: ts := by
      cases hs : splitOnChar sep cs with
      | nil => exact absurd hs (splitOnChar_ne_nil sep cs)
      | cons t ts => exact ⟨t, ts, rfl⟩
    by_cases h : (c == sep) = true
    · rw [if_pos h, hts]
      have hc : c = sep := eq_of_beq h
      rw [hts] at ih
      simp [joinChar, hc, ih]
    · rw [if_neg h, hts, joinChar_cons_cons, ← hts, ih]

theorem joinChar_appendToLast (sep : Char) (s : List Char) :
    ∀ ts : List (List Char), ts ≠ [] →
      joinChar sep (appendToLast s ts) = joinChar sep ts ++ s := by
  intro ts
  induction ts with
  | nil => intro h; cases h rfl
  | cons t ts ih =>
    intro _
    cases ts with
    | nil => simp [appendToLast, joinChar]
    | cons t2 ts2 =>
      obtain ⟨x, xs, hx⟩ :
          ∃ x xs, appendToLast s (t2 :: ts2) = x :: xs := by
        cases ts2 <;> simp [appendToLast]
      have ih2 := ih (by simp)
      calc joinChar sep (appendToLast s (t :: t2 :: ts2))
          = joinChar sep (t :: appendToLast s (t2 :: ts2)) := by
            simp [appendToLast]
        _ = t ++ sep :: joinChar sep (appendToLast s (t2 :: ts2)) := by
            rw [hx]; simp [joinChar]
        _ = t ++ sep :: (joinChar sep (t2 :: ts2) ++ s) := by rw [ih2]
        _ = joinChar sep (t :: t2 :: ts2) ++ s := by
            simp [joinChar, List.append_assoc]

/-- Core of claims C3/C9: on a newline-free line whose stripped form starts
with `INDEX `, `fix_time_format` returns the very same line with a `0`
digit and one platform line separator appended. -/
theorem fix_time_format_appends (line : String)
    (h1 : ∀ c ∈ line.data, c ≠ '\n') (h2 : is_index_line line = true) :
    fix_time_format line = line ++ "0" ++ linesep := by
  unfold fix_time_format
  rw [if_pos h2]
  apply String.ext
  have hf : line.data.filter (fun c => !(c == '\n')) = line.data := by
    apply List.filter_eq_self.mpr
    intro a ha
    simpa using h1 a ha
  simp only [String.data_append]
  rw [hf, joinChar_appendToLast _ _ _ (splitOnChar_ne_nil _ _),
    joinChar_splitOnChar]
  simp [linesep]

/-! ## Claim C3 -/

/-- Claim C3, counterexample: the correction is not the identity on an
index line already ending in two frame digits, and the corrected short
line is not literally `INDEX 01 00:00:00` either (a line separator is
appended as well). -/
theorem fix_time_format_noop_counterexample :
    fix_time_format "INDEX 01 00:00:00" ≠ "INDEX 01 00:00:00" ∧
    fix_time_format "INDEX 01 00:00:0" ≠ "INDEX 01 00:00:00" := by
  constructor <;> decide

/-- Claim C3 (amended): `INDEX 01 00:00:0` is corrected to
`INDEX 01 00:00:00` followed by the platform line separator, and the
correction is not a no-op on a line already ending in two frame digits:
every index line gets one more `0` digit (and a line separator) appended,
so `INDEX 01 00:00:00` becomes `INDEX 01 00:00:000` plus the separator. -/
theorem fix_time_format_pads_every_index_line :
    fix_time_format "INDEX 01 00:00:0" = "INDEX 01 00:00:00" ++ linesep ∧
    fix_time_format "INDEX 01 00:00:00" = "INDEX 01 00:00:000" ++ linesep := by
  constructor <;> decide

/-! ## Claim C9 -/

/-- Claim C9: for a terminator-free line (as `splitlines` produces) whose
stripped form starts with `INDEX `, the correction returns the line with a
`0` digit and one platform line separator appended, so the temp-sheet
writer (which adds one more separator per line) leaves the corrected index
line followed by an extra empty line; a non-index line is written with a
single separator. -/
theorem temp_cue_entry_extra_blank_line (line : String)
    (h1 : ∀ c ∈ line.data, c ≠ '\n') :
    (is_index_line line = true →
      temp_cue_content [fix_time_format line]
        = line ++ "0" ++ linesep ++ linesep) ∧
    (is_index_line line = false →
      temp_cue_content [fix_time_format line] = line ++ linesep) := by
  have hc : ∀ s : String, temp_cue_content [s] = s ++ linesep := by
    intro s
    apply String.ext
    simp [temp_cue_content, String.join]
  constructor
  · intro h2
    rw [hc, fix_time_format_appends line h1 h2]
  · intro h2
    rw [hc]
    unfold fix_time_format
    simp [h2]

/-- Witness for claim C9, at the concrete index line `INDEX 01 00:00:0`
and the concrete non-index line `TITLE "x"`. -/
theorem temp_cue_entry_extra_blank_line_witness :
    temp_cue_content [fix_time_format "INDEX 01 00:00:0"]
        = "INDEX 01 00:00:0" ++ "0" ++ linesep ++ linesep ∧
    temp_cue_content [fix_time_format "TITLE \"x\""]
        = "TITLE \"x\"" ++ linesep :=
  ⟨(temp_cue_entry_extra_blank_line "INDEX 01 00:00:0" (by decide)).1
      (by decide),
   (temp_cue_entry_extra_blank_line "TITLE \"x\"" (by decide)).2 (by decide)⟩

/-! ## Claim C10 -/

/-- Claim C10: the tag extraction is partial at the public parse
interface: a header line `TITLE ` with nothing after the keyword, and an
indented `TITLE ` inside a disc, both make first-token extraction index an
empty token list, so `parse_cue_file` fails with the (uncaught) indexing
error rather than any defined error outcome. -/
theorem parse_empty_tag_line_raises :
    parse_cue_file ["TITLE "] = .error PErr.indexError ∧
    parse_cue_file ["FILE \"a.wav\" WAVE", "  TITLE "]
        = .error PErr.indexError := by
  constructor <;> decide

/-! ## Claim C4 -/

/-- Two prefixes whose first characters differ cannot both match: used to
show that a line matching one header-tag pattern leaves the other two
extractors untouched. -/
theorem py_startsWith_head_ne (l p q : String) (c c2 : Char)
    (cs cs2 : List Char) (hp : p.data = c :: cs) (hq : q.data = c2 :: cs2)
    (hne : c2 ≠ c) (h : py_startsWith l p = true) :
    py_startsWith l q = false := by
  unfold py_startsWith at h ⊢
  rw [hp] at h
  rw [hq]
  cases hl : l.data with
  | nil =>
    rw [hl] at h
    exact absurd h (by simp [List.isPrefixOf])
  | cons d ds =>
    rw [hl] at h
    have h1 : (c == d) = true :=
      (Bool.and_eq_true_iff.mp (h :
        ((c == d) && List.isPrefixOf cs ds) = true)).1
    have h2 : (c2 == d) = false := by
      apply beq_eq_false_iff_ne.mpr
      intro hcd
      exact hne (hcd.trans (eq_of_beq h1).symm)
    show ((c2 == d) && List.isPrefixOf cs2 ds) = false
    rw [h2, Bool.false_and]

/-- Claim C4 (amended): later matches of the same tag type DO overwrite
the stored header tag.  After processing a header line matching one of the
three tag patterns, the corresponding album field equals the value
extracted from that very line, independent of whatever value was stored
before — so the retained value is the one of the LAST matching line, not
of the first. -/
theorem append_line_to_header_overwrites (a b : CueAlbum) (line : String)
    (hab : CueAlbum.append_line_to_header a line = .ok b) :
    (py_startsWith line "TITLE " = true →
        b.album_tag = (shlex_split (line.drop 6)).bind List.head?) ∧
    (py_startsWith line "PERFORMER " = true →
        b.artist_tag = (shlex_split (line.drop 10)).bind List.head?) ∧
    (py_startsWith line "REM DATE " = true →
        b.year_tag = (shlex_split (line.drop 9)).bind List.head?) := by
  refine ⟨fun h => ?_, fun h => ?_, fun h => ?_⟩
  · have hp : py_startsWith line "PERFORMER " = false :=
      py_startsWith_head_ne line "TITLE " "PERFORMER " 'T' 'P' _ _ rfl rfl
        (by decide) h
    have hr : py_startsWith line "REM DATE " = false :=
      py_startsWith_head_ne line "TITLE " "REM DATE " 'T' 'R' _ _ rfl rfl
        (by decide) h
    unfold CueAlbum.append_line_to_header at hab
    simp only [CueAlbum.populate_album_tag, CueAlbum.populate_artist_tag,
      CueAlbum.populate_year_tag, h, hp, hr, if_true, if_false,
      Bool.false_eq_true, if_pos, reduceIte] at hab
    cases hs : shlex_split (line.drop 6) with
    | none => rw [hs] at hab; cases hab
    | some ts =>
      rw [hs] at hab
      cases ts with
      | nil => cases hab
      | cons t rest =>
        cases hab
        simp
  · have ht : py_startsWith line "TITLE " = false :=
      py_startsWith_head_ne line "PERFORMER " "TITLE " 'P' 'T' _ _ rfl rfl
        (by decide) h
    have hr : py_startsWith line "REM DATE " = false :=
      py_startsWith_head_ne line "PERFORMER " "REM DATE " 'P' 'R' _ _ rfl rfl
        (by decide) h
    unfold CueAlbum.append_line_to_header at hab
    simp only [CueAlbum.populate_album_tag, CueAlbum.populate_artist_tag,
      CueAlbum.populate_year_tag, h, ht, hr, Bool.false_eq_true,
      reduceIte] at hab
    cases hs : shlex_split (line.drop 10) with
    | none => rw [hs] at hab; cases hab
    | some ts =>
      rw [hs] at hab
      cases ts with
      | nil => cases hab
      | cons t rest =>
        cases hab
        simp
  · have ht : py_startsWith line "TITLE " = false :=
      py_startsWith_head_ne line "REM DATE " "TITLE " 'R' 'T' _ _ rfl rfl
        (by decide) h
    have hp : py_startsWith line "PERFORMER " = false :=
      py_startsWith_head_ne line "REM DATE " "PERFORMER " 'R' 'P' _ _ rfl rfl
        (by decide) h
    unfold CueAlbum.append_line_to_header at hab
    simp only [CueAlbum.populate_album_tag, CueAlbum.populate_artist_tag,
      CueAlbum.populate_year_tag, h, ht, hp, Bool.false_eq_true,
      reduceIte] at hab
    cases hs : shlex_split (line.drop 9) with
    | none => rw [hs] at hab; cases hab
    | some ts =>
      rw [hs] at hab
      cases ts with
      | nil => cases hab
      | cons t rest =>
        cases hab
        simp

/-! ## Claims C2 and C5: the tagging step -/

/-- The full `metaflac` command `tag_single_file` builds for one file and
one title (given the album-level tags). -/
def tag_cmd (cue_album : CueAlbum) (title flac_file : String) : List String :=
  ["metaflac", "--preserve-modtime"]
    ++ opt_tag "--set-tag=ARTIST" cue_album.artist_tag
    ++ opt_tag "--set-tag=ALBUM" cue_album.album_tag
    ++ opt_tag "--set-tag=TITLE" (some title)
    ++ opt_tag "--set-tag=DATE" cue_album.year_tag
    ++ [flac_file]

theorem tag_single_file_eq (f : String) (album : CueAlbum)
    (disc_id track_id : Nat) (d : CueDisc)
    (hd : album.get_disc disc_id = some d) :
    CueToFlacTagUtils.tag_single_file f album disc_id track_id
      = (d.titles_tags.get? track_id).map (fun t => tag_cmd album t f) := by
  unfold CueToFlacTagUtils.tag_single_file
  rw [hd]
  cases ht : d.titles_tags[track_id]? with
  | none => simp [List.get?_eq_getElem?, ht, add_if_present, tag_cmd]
  | some t =>
    simp [List.get?_eq_getElem?, ht, add_if_present, tag_cmd,
      List.append_assoc]

/-- Closed form of the tagging loop: the performed invocations pair the
`i`-th remaining file with the `i`-th remaining title, and the loop ends
in an `IndexError` exactly when it runs out of titles before files. -/
theorem tag_files_loop_eq (album : CueAlbum) (disc_id : Nat) (d : CueDisc)
    (hd : album.get_disc disc_id = some d) :
    ∀ (files : List String) (k : Nat),
      tag_files_loop album disc_id files k =
        ⟨(files.zip (d.titles_tags.drop k)).map
            (fun p => tag_cmd album p.2 p.1),
          decide (d.titles_tags.length - k < files.length)⟩ := by
  intro files
  induction files with
  | nil => intro k; simp [tag_files_loop]
  | cons f fs ih =>
    intro k
    unfold tag_files_loop
    rw [tag_single_file_eq f album disc_id k d hd]
    cases ht : d.titles_tags.get? k with
    | none =>
      have hk : d.titles_tags.length ≤ k := List.get?_eq_none.mp ht
      have hdrop : d.titles_tags.drop k = [] := List.drop_eq_nil_of_le hk
      have hflag : d.titles_tags.length - k < fs.length + 1 := by omega
      simp [hdrop, hflag]
    | some t =>
      have hk : k < d.titles_tags.length := by
        rcases List.get?_eq_some.mp ht with ⟨h, _⟩
        exact h
      have hget : d.titles_tags.get ⟨k, hk⟩ = t :=
        (List.get?_eq_some.mp ht).choose_spec
      have hdrop : d.titles_tags.drop k = t :: d.titles_tags.drop (k + 1) := by
        rw [List.drop_eq_get_cons hk, hget]
      rw [ih (k + 1)]
      have hflag : (d.titles_tags.length - (k + 1) < fs.length)
          ↔ (d.titles_tags.length - k < fs.length + 1) := by omega
      simp [hdrop, decide_eq_decide.mpr hflag]

/-- Claim C2 (amended): the tagging step signals an `IndexError` exactly
when there are MORE output files than track titles (after the first
`titles`-count files were already tagged); when there are FEWER files than
titles the loop silently tags the present files and signals nothing.  In
either case every performed invocation pairs the file at position `i` with
the title at position `i`, so no file is tagged with another track's
metadata. -/
theorem tag_files_count_check (album : CueAlbum) (disc_id : Nat)
    (d : CueDisc) (files : List String)
    (hd : album.get_disc disc_id = some d) :
    ((CueToFlacTagUtils.tag_files files album disc_id).indexError = true
        ↔ d.titles_tags.length < files.length) ∧
    (CueToFlacTagUtils.tag_files files album disc_id).invocations.length
        = min files.length d.titles_tags.length ∧
    (∀ i cmd,
      (CueToFlacTagUtils.tag_files files album disc_id).invocations.get? i
          = some cmd →
      ∃ f t, files.get? i = some f ∧ d.titles_tags.get? i = some t ∧
        cmd = tag_cmd album t f) := by
  have h := tag_files_loop_eq album disc_id d hd files 0
  unfold CueToFlacTagUtils.tag_files
  rw [h]
  refine ⟨by simp, by simp [List.length_zip], ?_⟩
  intro i cmd hcmd
  simp only [List.get?_map] at hcmd
  cases hz : (files.zip (d.titles_tags.drop 0)).get? i with
  | none => rw [hz] at hcmd; cases hcmd
  | some p =>
    rw [hz] at hcmd
    have hp := (List.get?_zip_eq_some _ _ _ _).mp hz
    refine ⟨p.1, p.2, hp.1, by simpa using hp.2, ?_⟩
    cases hcmd
    rfl

/-- The disc used by the claim C2 counterexample: two track titles. -/
def discC2 : CueDisc := { titles_tags := ["A", "B"] }

/-- The album used by the claim C2 counterexample and witness. -/
def albumC2 : CueAlbum := { cue_disks := [discC2] }

/-- Claim C2, counterexample: one output file against two track titles —
the counts differ, yet the tagging step performs its single invocation and
signals NO error. -/
theorem tag_files_fewer_files_silent :
    (albumC2.get_disc 0).map (fun d => d.titles_tags.length) = some 2 ∧
    (CueToFlacTagUtils.tag_files ["f1.flac"] albumC2 0).indexError = false ∧
    (CueToFlacTagUtils.tag_files ["f1.flac"] albumC2 0).invocations.length
        = 1 := by
  refine ⟨by decide, by decide, by decide⟩

/-- Witness for claim C2's amended theorem: three files against two
titles yields the error, after exactly two invocations. -/
theorem tag_files_count_check_witness :
    (CueToFlacTagUtils.tag_files ["f1.flac", "f2.flac", "f3.flac"]
        albumC2 0).indexError = true ∧
    (CueToFlacTagUtils.tag_files ["f1.flac", "f2.flac", "f3.flac"]
        albumC2 0).invocations.length = 2 := by
  have h := tag_files_count_check albumC2 0 discC2
    ["f1.flac", "f2.flac", "f3.flac"] (by decide)
  refine ⟨h.1.mpr (by decide), ?_⟩
  rw [h.2.1]
  decide

/-- Claim C5 (amended): with at most as many files as titles, the tagging
step performs exactly one tag-writer invocation per file, pairing the file
at position `i` with `titles[i]`; the ARTIST/ALBUM/DATE tags, and equally
the TITLE tag, are included exactly when the corresponding value is a
nonempty string — a `None` value and an empty-string value alike cause the
tag to be omitted entirely (never written as an empty value), so an empty
extracted title is skipped too. -/
theorem tag_files_pairing (album : CueAlbum) (disc_id : Nat) (d : CueDisc)
    (files : List String) (hd : album.get_disc disc_id = some d)
    (hlen : files.length ≤ d.titles_tags.length) :
    CueToFlacTagUtils.tag_files files album disc_id
      = ⟨(files.zip d.titles_tags).map (fun p => tag_cmd album p.2 p.1),
          false⟩ ∧
    (CueToFlacTagUtils.tag_files files album disc_id).invocations.length
        = files.length ∧
    (∀ p, opt_tag p none = []) ∧
    (∀ p, opt_tag p (some "") = []) ∧
    (∀ p v, v ≠ "" → opt_tag p (some v) = [p ++ "=" ++ v]) ∧
    (∀ t f, tag_cmd album t f
      = ["metaflac", "--preserve-modtime"]
          ++ opt_tag "--set-tag=ARTIST" album.artist_tag
          ++ opt_tag "--set-tag=ALBUM" album.album_tag
          ++ opt_tag "--set-tag=TITLE" (some t)
          ++ opt_tag "--set-tag=DATE" album.year_tag
          ++ [f]) := by
  have h := tag_files_loop_eq album disc_id d hd files 0
  have hflag : decide (d.titles_tags.length - 0 < files.length) = false :=
    decide_eq_false (by omega)
  constructor
  · unfold CueToFlacTagUtils.tag_files
    rw [h, hflag]
    simp
  refine ⟨?_, fun p => rfl, fun p => rfl, fun p v hv => by simp [opt_tag, hv],
    fun t f => rfl⟩
  unfold CueToFlacTagUtils.tag_files
  rw [h]
  simp [List.length_zip]
  omega

/-- The disc used by the claim C5 counterexample: one empty track title
(produced by a sheet line `TITLE ""`). -/
def discC5e : CueDisc := { titles_tags := [""] }

/-- The album used by the claim C5 counterexample: no album-level tags. -/
def albumC5e : CueAlbum := { cue_disks := [discC5e] }

/-- Claim C5, counterexample: the title at position 0 is the empty string,
and the single invocation contains NO `--set-tag=TITLE=` element at all —
the TITLE tag is not set to `titles[0]` as the claim demands; the empty
value is skipped like an absent one. -/
theorem tag_empty_title_omitted :
    (albumC5e.get_disc 0).map CueDisc.titles_tags = some [""] ∧
    (CueToFlacTagUtils.tag_files ["f.flac"] albumC5e 0).invocations
        = [["metaflac", "--preserve-modtime", "f.flac"]] ∧
    (((CueToFlacTagUtils.tag_files ["f.flac"] albumC5e 0).invocations.getD
        0 []).contains ("--set-tag=TITLE=" ++ "")) = false := by
  refine ⟨by decide, by decide, by decide⟩

/-- The disc used by the claim C5 witness: the spec's round-trip example
with titles `One` and `Two`. -/
def discC5w : CueDisc := { titles_tags := ["One", "Two"] }

/-- The album used by the claim C5 witness: album `B`, year `2001`, no
performer line. -/
def albumC5w : CueAlbum :=
  { album_tag := some "B", year_tag := some "2001", cue_disks := [discC5w] }

/-- Witness for claim C5's amended theorem: tagging two files against the
round-trip album requests `TITLE=Two` for the file at position 1, includes
ALBUM and DATE, and does not touch ARTIST (absent performer). -/
theorem tag_files_pairing_witness :
    (CueToFlacTagUtils.tag_files ["f1.flac", "f2.flac"]
        albumC5w 0).invocations.get? 1
      = some ["metaflac", "--preserve-modtime", "--set-tag=ALBUM=B",
              "--set-tag=TITLE=Two", "--set-tag=DATE=2001", "f2.flac"] := by
  have h := (tag_files_pairing albumC5w 0 discC5w ["f1.flac", "f2.flac"]
    (by decide) (by decide)).1
  rw [h]
  decide

/-! ## Claim C1: running track numbers across discs -/

/-- Invariant of the disc loop: as long as no exception aborted it, disc
`i` of the remaining list is handed to the splitter with starting track
number `first` plus the title counts of the discs before it. -/
theorem convert_loop_split_numbers (header : List String)
    (env : Nat → List String) (destIsFile debug : Bool) (album : CueAlbum) :
    ∀ (discs : List CueDisc) (disc_id first : Nat),
      (convert_loop header env destIsFile debug album discs disc_id
          first).exc = none →
      (convert_loop header env destIsFile debug album discs disc_id
          first).reports.length = discs.length ∧
      ∀ i rep,
        (convert_loop header env destIsFile debug album discs disc_id
            first).reports.get? i = some rep →
        rep.split_call = some (first +
          ((discs.take i).map (fun d => d.titles_tags.length)).sum) := by
  intro discs
  induction discs with
  | nil =>
    intro disc_id first _
    refine ⟨rfl, ?_⟩
    intro i rep hrep
    simp [convert_loop] at hrep
  | cons disc rest ih =>
    intro disc_id first h
    cases hc : create_temp_cue_file (header ++ disc.cue_context) with
    | none =>
      exfalso
      simp [convert_loop, hc] at h
    | some content =>
      by_cases hi : (CueToFlacTagUtils.tag_files (env disc_id) album
          disc_id).indexError = true
      · exfalso
        simp [convert_loop, hc, hi] at h
      · by_cases hdf : destIsFile = true
        · exfalso
          simp [convert_loop, hc, hi, hdf] at h
        · rw [Bool.not_eq_true] at hdf
          subst hdf
          have hexc : (convert_loop header env false debug album rest
              (disc_id + 1) (first + disc.titles_tags.length)).exc = none := by
            simpa [convert_loop, hc, hi] using h
          obtain ⟨ihlen, ihget⟩ :=
            ih (disc_id + 1) (first + disc.titles_tags.length) hexc
          constructor
          · simp [convert_loop, hc, hi, ihlen]
          · intro i rep hrep
            simp only [convert_loop, hc, hi] at hrep
            cases i with
            | zero =>
              simp at hrep
              rw [← hrep]
              simp
            | succ i =>
              simp only [Bool.false_eq_true, if_false,
                List.get?_cons_succ] at hrep
              rw [ihget i rep hrep]
              simp only [List.take_succ_cons, List.map_cons, List.sum_cons,
                Option.some.injEq]
              omega

/-- Claim C1: within one `convert` invocation that finishes without an
exception, every disc is processed in sheet order and disc `i` (0-based)
is handed to the splitter with starting track number
`1 + sum of the title counts of discs 0..i-1`; the running number advances
by each disc's title count and never resets. -/
theorem convert_first_track_numbers (album : CueAlbum)
    (env : Nat → List String) (destIsFile debug : Bool)
    (hok : (CueConverter.convert album env destIsFile debug).exc = none) :
    (CueConverter.convert album env destIsFile debug).reports.length
        = album.cue_disks.length ∧
    ∀ i rep,
      (CueConverter.convert album env destIsFile debug).reports.get? i
          = some rep →
      rep.split_call = some (1 +
        ((album.cue_disks.take i).map
          (fun d => d.titles_tags.length)).sum) :=
  convert_loop_split_numbers album.header env destIsFile debug album
    album.cue_disks 0 1 hok

/-- First disc of the claim C1 witness album: five tracks. -/
def discC1a : CueDisc :=
  { titles_tags := ["a1", "a2", "a3", "a4", "a5"],
    cue_context := ["FILE \"cd1.wav\" WAVE"],
    music_file_name := some "cd1.wav" }

/-- Second disc of the claim C1 witness album: seven tracks. -/
def discC1b : CueDisc :=
  { titles_tags := ["b1", "b2", "b3", "b4", "b5", "b6", "b7"],
    cue_context := ["FILE \"cd2.wav\" WAVE"],
    music_file_name := some "cd2.wav" }

/-- The claim C1 witness album: a two-disc sheet with 5 and 7 tracks. -/
def albumC1 : CueAlbum :=
  { cue_disks := [discC1a, discC1b], header := ["PERFORMER \"X\""] }

/-- Witness for claim C1: on the two-disc sheet with 5 and 7 tracks, the
second disc's split is invoked with starting track number 6. -/
theorem convert_first_track_numbers_witness :
    ((CueConverter.convert albumC1 (fun _ => []) false false).reports.get?
        1).map DiscReport.split_call = some (some 6) := by
  have h := convert_first_track_numbers albumC1 (fun _ => []) false false
    (by decide)
  cases hg : (CueConverter.convert albumC1 (fun _ => []) false
      false).reports.get? 1 with
  | none =>
    exfalso
    have hle : (CueConverter.convert albumC1 (fun _ => []) false
        false).reports.length ≤ 1 := List.get?_eq_none.mp hg
    rw [h.1] at hle
    exact absurd hle (by decide)
  | some rep =>
    have hs := h.2 1 rep hg
    simp only [Option.map_some', hs]
    decide

/-! ## Claim C6: resource cleanup on the exit paths -/

/-- Invariant of the disc loop for cleanup: for every disc it reached, if
the disc's temp sheet content is nonempty (splitter invoked — the success,
splitter-failure, tagging-failure and destination-conflict paths) then the
`finally` block removed the temp cue file and, unless debug retention is
on, the temp directory; if the temp sheet content is empty, the
empty-temp-sheet error fires before the `try` and nothing is cleaned up,
the splitter never being invoked. -/
theorem convert_loop_cleanup (header : List String)
    (env : Nat → List String) (destIsFile debug : Bool) (album : CueAlbum) :
    ∀ (discs : List CueDisc) (disc_id first i : Nat) (rep : DiscReport)
      (disc : CueDisc),
      (convert_loop header env destIsFile debug album discs disc_id
          first).reports.get? i = some rep →
      discs.get? i = some disc →
      (create_temp_cue_file (header ++ disc.cue_context) ≠ none →
        rep.temp_cue_removed = true ∧ rep.temp_dir_removed = !debug) ∧
      (create_temp_cue_file (header ++ disc.cue_context) = none →
        rep.temp_cue_removed = false ∧ rep.temp_dir_removed = false ∧
        rep.split_call = none) := by
  intro discs
  induction discs with
  | nil =>
    intro disc_id first i rep disc hrep _
    simp [convert_loop] at hrep
  | cons d0 rest ih =>
    intro disc_id first i rep disc hrep hdisc
    cases hc : create_temp_cue_file (header ++ d0.cue_context) with
    | none =>
      simp only [convert_loop, hc] at hrep
      cases i with
      | zero =>
        simp only [List.get?_cons_zero, Option.some.injEq] at hrep hdisc
        subst hrep
        subst hdisc
        exact ⟨fun hne => absurd hc hne, fun _ => ⟨rfl, rfl, rfl⟩⟩
      | succ i => simp at hrep
    | some content =>
      by_cases hi : (CueToFlacTagUtils.tag_files (env disc_id) album
          disc_id).indexError = true
      · simp only [convert_loop, hc, hi, if_true] at hrep
        cases i with
        | zero =>
          simp only [List.get?_cons_zero, Option.some.injEq] at hrep hdisc
          subst hrep
          subst hdisc
          exact ⟨fun _ => ⟨rfl, rfl⟩, fun he => absurd he (by simp [hc])⟩
        | succ i => simp at hrep
      · by_cases hdf : destIsFile = true
        · simp only [convert_loop, hc, hi, hdf, Bool.false_eq_true,
            if_false, if_true] at hrep
          cases i with
          | zero =>
            simp only [List.get?_cons_zero, Option.some.injEq] at hrep hdisc
            subst hrep
            subst hdisc
            exact ⟨fun _ => ⟨rfl, rfl⟩, fun he => absurd he (by simp [hc])⟩
          | succ i => simp at hrep
        · rw [Bool.not_eq_true] at hdf
          subst hdf
          simp only [convert_loop, hc, hi, Bool.false_eq_true,
            if_false] at hrep
          cases i with
          | zero =>
            simp only [List.get?_cons_zero, Option.some.injEq] at hrep hdisc
            subst hrep
            subst hdisc
            exact ⟨fun _ => ⟨rfl, rfl⟩, fun he => absurd he (by simp [hc])⟩
          | succ i =>
            simp only [List.get?_cons_succ] at hrep hdisc
            exact ih (disc_id + 1) (first + d0.titles_tags.length) i rep
              disc hrep hdisc

/-- Claim C6 (amended): on the success, splitter-failure, tagging-failure
and destination-conflict exit paths (all the paths that enter the
`try/finally`, i.e. whenever the disc's temp sheet content is nonempty)
the temp cue file is removed and the temp output directory is removed
unless debug retention is active; but on the empty-temp-sheet defensive
path the error is raised BEFORE the `try` is entered, so the freshly
written temp cue file is NOT removed (and no temp directory was created
yet). -/
theorem convert_cleanup (album : CueAlbum) (env : Nat → List String)
    (destIsFile debug : Bool) (i : Nat) (rep : DiscReport) (disc : CueDisc)
    (hrep : (CueConverter.convert album env destIsFile
        debug).reports.get? i = some rep)
    (hdisc : album.cue_disks.get? i = some disc) :
    (create_temp_cue_file (album.header ++ disc.cue_context) ≠ none →
      rep.temp_cue_removed = true ∧ rep.temp_dir_removed = !debug) ∧
    (create_temp_cue_file (album.header ++ disc.cue_context) = none →
      rep.temp_cue_removed = false ∧ rep.temp_dir_removed = false ∧
      rep.split_call = none) :=
  convert_loop_cleanup album.header env destIsFile debug album
    album.cue_disks 0 1 i rep disc hrep hdisc

/-- The disc of the claim C6 witness: one track, nonempty context. -/
def discC6 : CueDisc :=
  { titles_tags := ["T"], cue_context := ["FILE \"f.wav\" WAVE"],
    music_file_name := some "f.wav" }

/-- The album of the claim C6 witness. -/
def albumC6 : CueAlbum := { cue_disks := [discC6] }

/-- Splitter output environment of the claim C6 witness: one track file. -/
def envC6 : Nat → List String := fun _ => ["01. T.flac"]

/-- The report the claim C6 witness run produces for its single disc. -/
def repC6 : DiscReport :=
  { split_call := some 1, temp_cue_removed := true, temp_dir_removed := true }

/-- Witness for claim C6's amended theorem: a successful disc run removes
the temp cue file and (debug off) the temp directory. -/
theorem convert_cleanup_witness :
    (CueConverter.convert albumC6 envC6 false false).reports.get? 0
        = some repC6 ∧
    (repC6.temp_cue_removed = true ∧ repC6.temp_dir_removed = !false) :=
  ⟨by decide,
   (convert_cleanup albumC6 envC6 false false 0 repC6 discC6 (by decide)
      (by decide)).1 (by decide)⟩

/-- The album of the claim C6 counterexample: a single disc whose context
is empty, so the temp sheet content is zero bytes. -/
def albumC6bad : CueAlbum := { cue_disks := [({} : CueDisc)] }

/-- Claim C6, counterexample: on the empty-temp-sheet exit path the
temporary sheet file is NOT removed — the defensive `IOError` is raised
inside `create_temp_cue_file`, before `convert`'s `try/finally` exists. -/
theorem convert_empty_sheet_leaks_temp_cue :
    (CueConverter.convert albumC6bad (fun _ => []) false false).exc
        = some PyExc.emptyTempSheet ∧
    ((CueConverter.convert albumC6bad (fun _ => []) false
        false).reports.get? 0).map DiscReport.temp_cue_removed
      = some false := by
  refine ⟨by decide, by decide⟩

/-! ## Claim C8: sheets with no file declaration -/

theorem populate_album_tag_disks (a b : CueAlbum) (line : String)
    (h : CueAlbum.populate_album_tag a line = .ok b) :
    b.cue_disks = a.cue_disks := by
  unfold CueAlbum.populate_album_tag at h
  split at h
  · split at h
    · exact Except.noConfusion h
    · exact Except.noConfusion h
    · cases h; rfl
  · cases h; rfl

theorem populate_artist_tag_disks (a b : CueAlbum) (line : String)
    (h : CueAlbum.populate_artist_tag a line = .ok b) :
    b.cue_disks = a.cue_disks := by
  unfold CueAlbum.populate_artist_tag at h
  split at h
  · split at h
    · exact Except.noConfusion h
    · exact Except.noConfusion h
    · cases h; rfl
  · cases h; rfl

theorem populate_year_tag_disks (a b : CueAlbum) (line : String)
    (h : CueAlbum.populate_year_tag a line = .ok b) :
    b.cue_disks = a.cue_disks := by
  unfold CueAlbum.populate_year_tag at h
  split at h
  · split at h
    · exact Except.noConfusion h
    · exact Except.noConfusion h
    · cases h; rfl
  · cases h; rfl

theorem append_line_to_header_disks (a b : CueAlbum) (line : String)
    (h : CueAlbum.append_line_to_header a line = .ok b) :
    b.cue_disks = a.cue_disks := by
  unfold CueAlbum.append_line_to_header at h
  cases h1 : CueAlbum.populate_album_tag
      { a with header := a.header ++ [line] } line with
  | error e => rw [h1] at h; exact Except.noConfusion h
  | ok a2 =>
    rw [h1] at h
    replace h : (match CueAlbum.populate_artist_tag a2 line with
      | Except.error e => Except.error e
      | Except.ok a3 => CueAlbum.populate_year_tag a3 line)
        = Except.ok b := h
    cases h2 : CueAlbum.populate_artist_tag a2 line with
    | error e => rw [h2] at h; exact Except.noConfusion h
    | ok a3 =>
      rw [h2] at h
      replace h : CueAlbum.populate_year_tag a3 line = Except.ok b := h
      rw [populate_year_tag_disks a3 b line h,
        populate_artist_tag_disks a2 a3 line h2,
        populate_album_tag_disks _ a2 line h1]

/-- A sheet with no `FILE ` line only ever feeds the header, so the disc
list stays empty through the whole parse. -/
theorem parse_lines_no_file (lines : List String) :
    ∀ a b : CueAlbum, (∀ l ∈ lines, py_startsWith l "FILE " = false) →
      a.cue_disks = [] → parse_lines lines a = .ok b →
      b.cue_disks = [] := by
  induction lines with
  | nil =>
    intro a b _ ha h
    cases h
    exact ha
  | cons line rest ih =>
    intro a b hnf ha h
    have hl : py_startsWith line "FILE " = false := hnf line (by simp)
    unfold parse_lines at h
    simp only [hl, Bool.false_eq_true, if_false, ha, List.length_nil,
      gt_iff_lt, Nat.lt_irrefl] at h
    cases hh : CueAlbum.append_line_to_header a line with
    | error e => rw [hh] at h; exact Except.noConfusion h
    | ok a2 =>
      rw [hh] at h
      exact ih a2 b (fun l hm => hnf l (by simp [hm]))
        ((append_line_to_header_disks a a2 line hh).trans ha) h

/-- Claim C8 (amended): a sheet with zero file-declaration lines parses to
an album with zero discs, and `convert` then iterates over no discs and
returns with NO error and NO splitter invocation — it completes silently
instead of signalling a malformed-sheet error (the code has no such
error). -/
theorem parse_no_file_silent (lines : List String) (a : CueAlbum)
    (env : Nat → List String) (destIsFile debug : Bool)
    (hnf : ∀ l ∈ lines, py_startsWith l "FILE " = false)
    (hp : parse_cue_file lines = .ok a) :
    a.cue_disks = [] ∧
    CueConverter.convert a env destIsFile debug = ⟨[], none⟩ := by
  have hd : a.cue_disks = [] := parse_lines_no_file lines {} a hnf rfl hp
  refine ⟨hd, ?_⟩
  unfold CueConverter.convert
  rw [hd]
  rfl

/-- Claim C8, counterexample: a concrete sheet with no file declaration
parses to zero discs and `convert` finishes with no exception and no
per-disc work — nothing resembling a `MalformedSheet` signal exists. -/
theorem parse_no_file_completes_silently :
    (parse_cue_file ["REM hello"]).map
        (fun a => (a.cue_disks.length,
          (CueConverter.convert a (fun _ => []) false false).exc,
          (CueConverter.convert a (fun _ => []) false
            false).reports.length))
      = .ok (0, none, 0) := by decide

/-- The album the claim C8 witness sheet parses to. -/
def albumC8 : CueAlbum := { header := ["REM hello"] }

/-- Witness for claim C8's amended theorem at the concrete sheet
`REM hello`. -/
theorem parse_no_file_silent_witness :
    albumC8.cue_disks = [] ∧
    CueConverter.convert albumC8 (fun _ => []) false false = ⟨[], none⟩ :=
  parse_no_file_silent ["REM hello"] albumC8 (fun _ => []) false false
    (by decide) (by decide)

/-! ## Claim C7: the encoding fallback protocol -/

/-- Claim C7 (amended): reading sheet text first attempts the fixed
default encoding `utf-8`; on decode failure with no fallback configured
the failure is immediately fatal with the error instructing the operator
to supply `--fallback_cue_encoding`; with a fallback configured that
DIFFERS from `utf-8`, exactly one retry with the fallback is made
(attempt list `["utf-8", fb]`) and its outcome decides between success and
the fatal fallback-failure error.  (When the configured fallback is
`utf-8` itself the code instead retries with the same encoding until the
recursion limit — see the counterexample.) -/
theorem readTextFile_fallback_protocol (fuel : Nat)
    (decode : String → Option (List String)) (fb : String)
    (hfuel : 2 ≤ fuel) (hfb : fb ≠ "utf-8")
    (hfail : decode "utf-8" = none) :
    (FileUtils.readTextFile fuel decode (some fb) "utf-8").1
        = ["utf-8", fb] ∧
    (∀ ls, decode fb = some ls →
      (FileUtils.readTextFile fuel decode (some fb) "utf-8").2
        = .ok ls) ∧
    (decode fb = none →
      (FileUtils.readTextFile fuel decode (some fb) "utf-8").2
        = .error ReadError.fallbackFailed) ∧
    FileUtils.readTextFile fuel decode none "utf-8"
        = (["utf-8"], .error ReadError.noFallback) := by
  obtain ⟨k, rfl⟩ : ∃ k, fuel = k + 2 := ⟨fuel - 2, by omega⟩
  have hstep : FileUtils.readTextFile (k + 2) decode (some fb) "utf-8"
      = ("utf-8" :: (FileUtils.readTextFile (k + 1) decode (some fb) fb).1,
        (FileUtils.readTextFile (k + 1) decode (some fb) fb).2) := by
    simp [FileUtils.readTextFile, hfail]
  have hinner : FileUtils.readTextFile (k + 1) decode (some fb) fb
      = (match decode fb with
        | some ls => ([fb], Except.ok ls)
        | none => ([fb], Except.error ReadError.fallbackFailed)) := by
    cases hdf : decode fb with
    | some ls => simp [FileUtils.readTextFile, hdf]
    | none => simp [FileUtils.readTextFile, hdf, hfb]
  refine ⟨?_, ?_, ?_, ?_⟩
  · rw [hstep, hinner]
    cases hdf : decode fb <;> simp [hdf]
  · intro ls hls
    rw [hstep, hinner, hls]
  · intro hls
    rw [hstep, hinner, hls]
  · simp [FileUtils.readTextFile, hfail]

/-- Claim C7, counterexample: with the fallback encoding configured as
`utf-8` itself and an undecodable file, the code does not make exactly one
retry — the number of attempts grows with the recursion budget (five
attempts at depth 5) and the run ends in the recursion-limit error, not in
the documented fallback-failure error. -/
theorem readTextFile_same_fallback_retries_unbounded :
    (FileUtils.readTextFile 5 (fun _ => none) (some "utf-8") "utf-8").1
        = ["utf-8", "utf-8", "utf-8", "utf-8", "utf-8"] ∧
    (FileUtils.readTextFile 5 (fun _ => none) (some "utf-8") "utf-8").2
        = .error ReadError.recursionLimit :=
  ⟨rfl, rfl⟩

/-- The decode environment of the claim C7 witness: the bytes decode only
under `cp1251`. -/
def decodeC7 : String → Option (List String) :=
  fun e => if e = "cp1251" then some ["TITLE \"A\""] else none

/-- Witness for claim C7's amended theorem: default attempt fails, the
single `cp1251` retry succeeds; with no fallback configured the failure is
immediately fatal with the instructive error. -/
theorem readTextFile_fallback_protocol_witness :
    (FileUtils.readTextFile 2 decodeC7 (some "cp1251") "utf-8").1
        = ["utf-8", "cp1251"] ∧
    (FileUtils.readTextFile 2 decodeC7 (some "cp1251") "utf-8").2
        = .ok ["TITLE \"A\""] ∧
    FileUtils.readTextFile 2 decodeC7 none "utf-8"
        = (["utf-8"], .error ReadError.noFallback) := by
  have h := readTextFile_fallback_protocol 2 decodeC7 "cp1251" (by decide)
    (by decide) (by rfl)
  exact ⟨h.1, h.2.1 ["TITLE \"A\""] (by rfl), h.2.2.2⟩

/-- Claim C4, counterexample: a header with two `TITLE` lines ends up with
the album title of the SECOND line, not the first. -/
theorem parse_second_title_overwrites :
    (parse_cue_file ["TITLE \"A\"", "TITLE \"B\""]).map CueAlbum.album_tag
        = .ok (some "B") ∧
    (some "B" : Option String) ≠ some "A" := by
  constructor <;> decide

/-- A header state that already carries an album title. -/
def albumC4pre : CueAlbum := { album_tag := some "A" }

/-- The state after `append_line_to_header` processes a second title. -/
def albumC4post : CueAlbum :=
  { album_tag := some "B", header := ["TITLE \"B\""] }

/-- Witness for claim C4's amended theorem at a concrete second
`TITLE` line. -/
theorem append_line_to_header_overwrites_witness :
    albumC4post.album_tag
        = (shlex_split (("TITLE \"B\"" : String).drop 6)).bind List.head? ∧
    albumC4post.album_tag = some "B" :=
  ⟨(append_line_to_header_overwrites albumC4pre albumC4post "TITLE \"B\""
      (by decide)).1 (by decide), by decide⟩
